import Mathlib

/- Shallow embedding of src/simulation_lib/training.py, the task-orchestration
layer of a distributed-learning simulation library.  Python dicts are embedded
as association lists with unique keys (`Dict`), Python sets as `Finset`,
KeyErrors and assertion failures as `Except`, and the opaque numeric metric
values as rationals. -/

/-- Association-list embedding of a Python `dict`: `insert` models
`d[k] = v` (overwrite in place, else append), `union` models the `|=`
update operator, `pop` models `d.pop(k)`, and `lookup` models `d[k]`
(`none` standing for a KeyError). -/
abbrev Dict (K V : Type) : Type := List (K × V)

def Dict.lookup {K V : Type} [DecidableEq K] (d : Dict K V) (k : K) : Option V :=
  match d with
  | [] => none
  | p :: rest => if p.1 = k then some p.2 else Dict.lookup rest k

def Dict.insert {K V : Type} [DecidableEq K] (d : Dict K V) (k : K) (v : V) : Dict K V :=
  match d with
  | [] => [(k, v)]
  | p :: rest => if p.1 = k then (k, v) :: rest else p :: Dict.insert rest k v

def Dict.pop {K V : Type} [DecidableEq K] (d : Dict K V) (k : K) : Dict K V :=
  match d with
  | [] => []
  | p :: rest => if p.1 = k then rest else p :: Dict.pop rest k

/-- The `|=` dict-update operator: every pair of `d2` is written into `d1`
in order, overwriting earlier values of the same key. -/
def Dict.union {K V : Type} [DecidableEq K] (d1 d2 : Dict K V) : Dict K V :=
  match d2 with
  | [] => d1
  | p :: rest => Dict.union (Dict.insert d1 p.1 p.2) rest

def Dict.keys {K V : Type} (d : Dict K V) : List K := d.map Prod.fst

theorem Dict.lookup_insert_self {K V : Type} [DecidableEq K] (d : Dict K V) (k : K) (v : V) :
    Dict.lookup (Dict.insert d k v) k = some v := by
  induction d with
  | nil => simp [Dict.insert, Dict.lookup]
  | cons p rest ih =>
    by_cases h : p.1 = k
    · simp [Dict.insert, h, Dict.lookup]
    · simp [Dict.insert, h, Dict.lookup, ih]

theorem Dict.lookup_insert_ne {K V : Type} [DecidableEq K] (d : Dict K V) {k' k : K} (v : V)
    (h : k' ≠ k) : Dict.lookup (Dict.insert d k' v) k = Dict.lookup d k := by
  induction d with
  | nil => simp [Dict.insert, Dict.lookup, h]
  | cons p rest ih =>
    by_cases hp : p.1 = k'
    · simp [Dict.insert, hp, Dict.lookup, h]
    · by_cases hk : p.1 = k
      · simp [Dict.insert, hp, Dict.lookup, hk, Ne.symm h]
      · simp [Dict.insert, hp, Dict.lookup, hk, ih]

theorem Dict.lookup_eq_none_of_not_mem_keys {K V : Type} [DecidableEq K]
    {d : Dict K V} {k : K} (h : k ∉ Dict.keys d) : Dict.lookup d k = none := by
  induction d with
  | nil => simp [Dict.lookup]
  | cons p rest ih =>
    simp only [Dict.keys, List.map_cons, List.mem_cons, not_or] at h
    have hp : ¬p.1 = k := fun he => h.1 he.symm
    simp [Dict.lookup, hp, ih (by simpa [Dict.keys] using h.2)]

theorem Dict.mem_keys_of_lookup {K V : Type} [DecidableEq K]
    {d : Dict K V} {k : K} {v : V} (h : Dict.lookup d k = some v) : k ∈ Dict.keys d := by
  induction d with
  | nil => simp [Dict.lookup] at h
  | cons p rest ih =>
    by_cases hp : p.1 = k
    · simp [Dict.keys, hp]
    · simp only [Dict.lookup, hp, if_false] at h
      simp [Dict.keys, Or.inr (by simpa [Dict.keys] using ih h)]

theorem Dict.lookup_mem {K V : Type} [DecidableEq K]
    {d : Dict K V} {k : K} {v : V} (h : Dict.lookup d k = some v) : (k, v) ∈ d := by
  induction d with
  | nil => simp [Dict.lookup] at h
  | cons p rest ih =>
    by_cases hp : p.1 = k
    · simp only [Dict.lookup, hp, if_true, Option.some.injEq] at h
      obtain ⟨pk, pv⟩ := p
      simp only at hp h
      subst hp
      subst h
      exact List.mem_cons_self _ _
    · simp only [Dict.lookup, hp, if_false] at h
      exact List.mem_cons_of_mem _ (ih h)

theorem Dict.lookup_pop_self {K V : Type} [DecidableEq K]
    {d : Dict K V} (k : K) (h : (Dict.keys d).Nodup) :
    Dict.lookup (Dict.pop d k) k = none := by
  induction d with
  | nil => simp [Dict.pop, Dict.lookup]
  | cons p rest ih =>
    simp only [Dict.keys, List.map_cons, List.nodup_cons] at h
    by_cases hp : p.1 = k
    · simpa [Dict.pop, hp] using
        Dict.lookup_eq_none_of_not_mem_keys (d := rest) (k := k) (hp ▸ h.1)
    · simp [Dict.pop, hp, Dict.lookup, ih h.2]

theorem Dict.keys_insert_of_mem {K V : Type} [DecidableEq K]
    {d : Dict K V} {k : K} (v : V) (h : k ∈ Dict.keys d) :
    Dict.keys (Dict.insert d k v) = Dict.keys d := by
  induction d with
  | nil => simp [Dict.keys] at h
  | cons p rest ih =>
    by_cases hp : p.1 = k
    · simp [Dict.insert, hp, Dict.keys]
    · simp only [Dict.keys, List.map_cons, List.mem_cons] at h
      rcases h with h | h
      · exact absurd h.symm hp
      · have hrest := ih (by simpa [Dict.keys] using h)
        simp only [Dict.insert, hp, if_false, Dict.keys, List.map_cons]
        simpa [Dict.keys] using hrest

theorem Dict.lookup_union_none {K V : Type} [DecidableEq K]
    (d1 : Dict K V) {d2 : Dict K V} (h2 : (Dict.keys d2).Nodup) {k : K}
    (h : Dict.lookup d2 k = none) :
    Dict.lookup (Dict.union d1 d2) k = Dict.lookup d1 k := by
  induction d2 generalizing d1 with
  | nil => simp [Dict.union]
  | cons p rest ih =>
    simp only [Dict.keys, List.map_cons, List.nodup_cons] at h2
    by_cases hp : p.1 = k
    · simp [Dict.lookup, hp] at h
    · simp only [Dict.lookup, hp, if_false] at h
      simp only [Dict.union]
      rw [ih _ h2.2 h, Dict.lookup_insert_ne _ _ hp]

theorem Dict.lookup_union_some {K V : Type} [DecidableEq K]
    (d1 : Dict K V) {d2 : Dict K V} (h2 : (Dict.keys d2).Nodup) {k : K} {v : V}
    (h : Dict.lookup d2 k = some v) :
    Dict.lookup (Dict.union d1 d2) k = some v := by
  induction d2 generalizing d1 with
  | nil => simp [Dict.lookup] at h
  | cons p rest ih =>
    simp only [Dict.keys, List.map_cons, List.nodup_cons] at h2
    by_cases hp : p.1 = k
    · simp only [Dict.lookup, hp, if_true, Option.some.injEq] at h
      have hrest : Dict.lookup rest k = none :=
        Dict.lookup_eq_none_of_not_mem_keys (hp ▸ h2.1)
      have hnone := Dict.lookup_union_none (Dict.insert d1 p.1 p.2) h2.2 hrest
      simp only [Dict.union]
      rw [hnone, hp, Dict.lookup_insert_self, h]
    · simp only [Dict.lookup, hp, if_false] at h
      simp only [Dict.union]
      exact ih _ h2.2 h

/-- Lexicographic comparison of character lists by code point — the order
Python uses to compare strings.  Defined by structural recursion on plain
`Nat` comparisons so that the kernel can evaluate it. -/
def charListLeB : List Char → List Char → Bool
  | [], _ => true
  | _ :: _, [] => false
  | a :: as, b :: bs =>
    if a.toNat < b.toNat then true
    else if b.toNat < a.toNat then false
    else charListLeB as bs

/-- Python's `<=` on strings: code-point lexicographic order. -/
def strLe (a b : String) : Prop := charListLeB a.data b.data = true

instance strLe.instDecidableRel : DecidableRel strLe :=
  fun a b => show Decidable (charListLeB a.data b.data = true) from Bool.decEq _ _

theorem charListLeB_total : ∀ (l1 l2 : List Char),
    charListLeB l1 l2 = true ∨ charListLeB l2 l1 = true
  | [], [] => Or.inl rfl
  | [], _ :: _ => Or.inl rfl
  | _ :: _, [] => Or.inr rfl
  | a :: as, b :: bs => by
    by_cases h1 : a.toNat < b.toNat
    · left
      simp [charListLeB, h1]
    · by_cases h2 : b.toNat < a.toNat
      · right
        simp [charListLeB, h2]
      · rcases charListLeB_total as bs with h | h
        · left
          simp [charListLeB, h1, h2, h]
        · right
          simp [charListLeB, h1, h2, h]

theorem charListLeB_trans : ∀ (l1 l2 l3 : List Char),
    charListLeB l1 l2 = true → charListLeB l2 l3 = true → charListLeB l1 l3 = true
  | [], _, _, _, _ => rfl
  | _ :: _, [], _, h12, _ => by simp [charListLeB] at h12
  | _ :: _, _ :: _, [], _, h23 => by simp [charListLeB] at h23
  | a :: as, b :: bs, c :: cs, h12, h23 => by
    simp only [charListLeB] at h12 h23 ⊢
    by_cases hab : a.toNat < b.toNat
    · by_cases hbc : b.toNat < c.toNat
      · simp [Nat.lt_trans hab hbc]
      · simp only [hbc, if_false] at h23
        by_cases hcb : c.toNat < b.toNat
        · simp [hcb] at h23
        · have hbc2 : b.toNat = c.toNat := Nat.le_antisymm (Nat.le_of_not_lt hcb) (Nat.le_of_not_lt hbc)
          simp [hbc2 ▸ hab]
    · simp only [hab, if_false] at h12
      by_cases hba : b.toNat < a.toNat
      · simp [hba] at h12
      · have hab2 : a.toNat = b.toNat := Nat.le_antisymm (Nat.le_of_not_lt hba) (Nat.le_of_not_lt hab)
        simp only [hba, if_false] at h12
        by_cases hbc : b.toNat < c.toNat
        · simp [hab2 ▸ hbc]
        · simp only [hbc, if_false] at h23
          by_cases hcb : c.toNat < b.toNat
          · simp [hcb] at h23
          · simp only [hcb, if_false] at h23
            have hac : ¬a.toNat < c.toNat := by omega
            have hca : ¬c.toNat < a.toNat := by omega
            simp [hac, hca, charListLeB_trans as bs cs h12 h23]

theorem charListLeB_antisymm : ∀ (l1 l2 : List Char),
    charListLeB l1 l2 = true → charListLeB l2 l1 = true → l1 = l2
  | [], [], _, _ => rfl
  | [], _ :: _, _, h21 => by simp [charListLeB] at h21
  | _ :: _, [], h12, _ => by simp [charListLeB] at h12
  | a :: as, b :: bs, h12, h21 => by
    simp only [charListLeB] at h12 h21
    by_cases hab : a.toNat < b.toNat
    · have hba : ¬b.toNat < a.toNat := by omega
      simp [hba, hab] at h21
    · by_cases hba : b.toNat < a.toNat
      · simp [hab, hba] at h12
      · have heq : a.toNat = b.toNat := by omega
        have hchar : a = b := Char.eq_of_val_eq (UInt32.ext heq)
        simp only [hab, hba, if_false] at h12 h21
        rw [hchar, charListLeB_antisymm as bs h12 h21]

instance strLe.instIsTotal : IsTotal String strLe :=
  ⟨fun a b => charListLeB_total a.data b.data⟩

instance strLe.instIsTrans : IsTrans String strLe :=
  ⟨fun a b c => charListLeB_trans a.data b.data c.data⟩

instance strLe.instIsAntisymm : IsAntisymm String strLe :=
  ⟨fun a b h12 h21 => by
    have hd := charListLeB_antisymm a.data b.data h12 h21
    exact String.ext hd⟩

/-- Ascending enumeration of a multiset of strings, via Mathlib's
structurally recursive insertion sort (so that it is computable and
evaluates definitionally).  Well defined on the permutation quotient
because two sorted permutations of the same elements are equal. -/
def sortedList (m : Multiset String) : List String :=
  Quot.liftOn m (fun l => List.insertionSort strLe l)
    (fun l1 l2 h =>
      List.eq_of_perm_of_sorted
        (((List.perm_insertionSort _ l1).trans h).trans
          (List.perm_insertionSort _ l2).symm)
        (List.sorted_insertionSort _ l1) (List.sorted_insertionSort _ l2))

/-- Python's `sorted(...)` applied to a set of participant identifiers. -/
def sortedIds (ids : Finset String) : List String :=
  sortedList ids.val

theorem sortedList_coe (m : Multiset String) : (sortedList m : Multiset String) = m :=
  Quot.inductionOn m (fun l => Quot.sound (List.perm_insertionSort _ l))

theorem sortedIds_nodup (ids : Finset String) : (sortedIds ids).Nodup := by
  rw [← Multiset.coe_nodup, sortedIds, sortedList_coe]
  exact ids.nodup

theorem sortedIds_length (ids : Finset String) : (sortedIds ids).length = ids.card := by
  rw [← Multiset.coe_card, sortedIds, sortedList_coe]
  rfl

/-- Looking up the i-th element of `l` in the association list `l.zip ns`
returns the i-th element of `ns`, provided `l` has no duplicates. -/
theorem Dict.lookup_zip_get {α : Type} [DecidableEq α] :
    ∀ (l : List α) (ns : List Nat), l.Nodup →
      ∀ (i : Nat) (h1 : i < l.length) (h2 : i < ns.length),
        Dict.lookup (l.zip ns) (l.get ⟨i, h1⟩) = some (ns.get ⟨i, h2⟩)
  | [], _, _, i, h1, _ => by simp at h1
  | _ :: _, [], _, i, _, h2 => by simp at h2
  | a :: l, n :: ns, hnd, 0, h1, h2 => by
    simp [List.zip, Dict.lookup]
  | a :: l, n :: ns, hnd, i + 1, h1, h2 => by
    simp only [List.nodup_cons] at hnd
    have hne : a ≠ l.get ⟨i, by simpa using h1⟩ :=
      fun he => hnd.1 (he ▸ l.get_mem _ _)
    simp only [List.zip, List.zipWith, List.get, Dict.lookup, if_neg hne]
    exact Dict.lookup_zip_get l ns hnd.2 i _ _

/-- The keys of `l.zip ns` are the first `ns.length` elements of `l`
(`zip` silently truncates at the shorter list). -/
theorem Dict.keys_zip {α : Type} :
    ∀ (l : List α) (ns : List Nat), Dict.keys (l.zip ns) = l.take ns.length
  | [], _ => by simp [Dict.keys]
  | _ :: _, [] => by simp [Dict.keys]
  | a :: l, n :: ns => by
    simp only [List.zip, List.zipWith, Dict.keys, List.map_cons, List.length_cons,
      List.take_succ_cons]
    exact congrArg _ (Dict.keys_zip l ns)

theorem List.take_min_length {α : Type} :
    ∀ (l : List α) (n : Nat), l.take (min n l.length) = l.take n
  | [], n => by simp
  | a :: l, 0 => by simp
  | a :: l, n + 1 => by
    simp only [List.length_cons, Nat.succ_min_succ, List.take_succ_cons]
    exact congrArg _ (List.take_min_length l n)

/-- Opaque values appearing in result fragments: a numeric metric, a raw
per-round per-worker-slot attribution ("shapley values") table, or the
remapped per-round per-participant table produced by the result collector. -/
inductive RVal where
  | num (q : ℚ)
  | svRaw (t : Dict Nat (Dict Nat ℚ))
  | svMapped (t : Dict Nat (Dict String ℚ))
  deriving DecidableEq

/-- Errors surfaced by `get_training_result` (Python exceptions). -/
inductive GTRError where
  | taskKeyError
  | resultsKeyError
  | remapKeyError
  | svTypeError
  deriving DecidableEq

instance instDecEqExcept {ε α : Type} [DecidableEq ε] [DecidableEq α] :
    DecidableEq (Except ε α) := fun x y =>
  match x, y with
  | Except.error e1, Except.error e2 =>
    decidable_of_iff (e1 = e2) ⟨fun h => congrArg Except.error h, Except.error.inj⟩
  | Except.error _, Except.ok _ => isFalse (fun h => Except.noConfusion h)
  | Except.ok _, Except.error _ => isFalse (fun h => Except.noConfusion h)
  | Except.ok a1, Except.ok a2 =>
    decidable_of_iff (a1 = a2) ⟨fun h => congrArg Except.ok h, Except.ok.inj⟩

/-- The inner loop of the sv remap in `get_training_result`
(training.py lines 133-136): walk the `zip(sorted(practitioner_ids),
range(config.worker_number))` pairs in order, writing
`sv_dict[round][practitioner_id] = tmp_sv_dict[worker_id]`; a missing
worker slot is a KeyError (`none`). -/
def remapRound {α : Type} [DecidableEq α]
    (pairs : List (α × Nat)) (tmp_sv_dict : Dict Nat ℚ) (acc : Dict α ℚ) :
    Option (Dict α ℚ) :=
  match pairs with
  | [] => some acc
  | pr :: rest =>
    match Dict.lookup tmp_sv_dict pr.2 with
    | none => none
    | some v => remapRound rest tmp_sv_dict (Dict.insert acc pr.1 v)

/-- The outer loop of the sv remap (training.py lines 131-136): for each
round in the raw table, rebuild that round's row keyed by participant
identifier. -/
def svRemap {α : Type} [DecidableEq α]
    (pairs : List (α × Nat)) (v : Dict Nat (Dict Nat ℚ)) (acc : Dict Nat (Dict α ℚ)) :
    Option (Dict Nat (Dict α ℚ)) :=
  match v with
  | [] => some acc
  | rt :: rest =>
    match remapRound pairs rt.2 [] with
    | none => none
    | some mrow => svRemap pairs rest (Dict.insert acc rt.1 mrow)

/-- `zip(sorted(practitioner_ids), range(config.worker_number))`. -/
def zipPairs (ids : Finset String) (worker_number : Nat) : List (String × Nat) :=
  (sortedIds ids).zip (List.range worker_number)

theorem remapRound_none {α : Type} [DecidableEq α] :
    ∀ (pairs : List (α × Nat)) (tmp : Dict Nat ℚ) (acc : Dict α ℚ) {mrow : Dict α ℚ},
      remapRound pairs tmp acc = some mrow → ∀ {pid : α},
      Dict.lookup pairs pid = none → Dict.lookup mrow pid = Dict.lookup acc pid
  | [], tmp, acc, mrow, h, pid, hpid => by
    simp only [remapRound, Option.some.injEq] at h
    rw [← h]
  | pr :: rest, tmp, acc, mrow, h, pid, hpid => by
    simp only [Dict.lookup] at hpid
    by_cases hp : pr.1 = pid
    · simp [hp] at hpid
    · simp only [hp, if_false] at hpid
      simp only [remapRound] at h
      cases htmp : Dict.lookup tmp pr.2 with
      | none => rw [htmp] at h; exact absurd h (by simp)
      | some v =>
        rw [htmp] at h
        rw [remapRound_none rest tmp _ h hpid, Dict.lookup_insert_ne _ _ hp]

theorem remapRound_some {α : Type} [DecidableEq α] :
    ∀ (pairs : List (α × Nat)) (tmp : Dict Nat ℚ) (acc : Dict α ℚ) {mrow : Dict α ℚ},
      (Dict.keys pairs).Nodup →
      remapRound pairs tmp acc = some mrow → ∀ {pid : α} {slot : Nat},
      Dict.lookup pairs pid = some slot →
      Dict.lookup mrow pid = Dict.lookup tmp slot
  | [], tmp, acc, mrow, hnd, h, pid, slot, hpid => by
    simp [Dict.lookup] at hpid
  | pr :: rest, tmp, acc, mrow, hnd, h, pid, slot, hpid => by
    simp only [Dict.keys, List.map_cons, List.nodup_cons] at hnd
    simp only [remapRound] at h
    cases htmp : Dict.lookup tmp pr.2 with
    | none => rw [htmp] at h; exact absurd h (by simp)
    | some v =>
      rw [htmp] at h
      simp only [Dict.lookup] at hpid
      by_cases hp : pr.1 = pid
      · simp only [hp, if_true, Option.some.injEq] at hpid
        have hrest : Dict.lookup rest pid = none :=
          Dict.lookup_eq_none_of_not_mem_keys (hp ▸ hnd.1)
        rw [remapRound_none rest tmp _ h hrest, ← hp, Dict.lookup_insert_self, ← hpid, htmp]
      · simp only [hp, if_false] at hpid
        exact remapRound_some rest tmp _ hnd.2 h hpid

theorem remapRound_total {α : Type} [DecidableEq α] :
    ∀ (pairs : List (α × Nat)) (tmp : Dict Nat ℚ),
      (∀ pr ∈ pairs, (Dict.lookup tmp pr.2).isSome) →
      ∀ acc, ∃ mrow, remapRound pairs tmp acc = some mrow
  | [], tmp, _, acc => ⟨acc, rfl⟩
  | pr :: rest, tmp, h, acc => by
    cases htmp : Dict.lookup tmp pr.2 with
    | none =>
      have := h pr (List.mem_cons_self _ _)
      rw [htmp] at this
      simp at this
    | some v =>
      obtain ⟨mrow, hm⟩ :=
        remapRound_total rest tmp (fun q hq => h q (List.mem_cons_of_mem _ hq))
          (Dict.insert acc pr.1 v)
      exact ⟨mrow, by simp only [remapRound, htmp]; exact hm⟩

theorem svRemap_none {α : Type} [DecidableEq α] :
    ∀ (pairs : List (α × Nat)) (v : Dict Nat (Dict Nat ℚ)) (acc : Dict Nat (Dict α ℚ))
      {mapped : Dict Nat (Dict α ℚ)},
      svRemap pairs v acc = some mapped → ∀ {rd : Nat},
      Dict.lookup v rd = none → Dict.lookup mapped rd = Dict.lookup acc rd
  | pairs, [], acc, mapped, h, rd, hrd => by
    simp only [svRemap, Option.some.injEq] at h
    rw [← h]
  | pairs, rt :: rest, acc, mapped, h, rd, hrd => by
    simp only [Dict.lookup] at hrd
    by_cases hp : rt.1 = rd
    · simp [hp] at hrd
    · simp only [hp, if_false] at hrd
      simp only [svRemap] at h
      cases hrow : remapRound pairs rt.2 [] with
      | none => rw [hrow] at h; exact absurd h (by simp)
      | some mrow =>
        rw [hrow] at h
        rw [svRemap_none pairs rest _ h hrd, Dict.lookup_insert_ne _ _ hp]

theorem svRemap_some {α : Type} [DecidableEq α] :
    ∀ (pairs : List (α × Nat)) (v : Dict Nat (Dict Nat ℚ)) (acc : Dict Nat (Dict α ℚ))
      {mapped : Dict Nat (Dict α ℚ)},
      (Dict.keys v).Nodup →
      svRemap pairs v acc = some mapped → ∀ {rd : Nat} {tmp : Dict Nat ℚ},
      Dict.lookup v rd = some tmp →
      ∃ mrow, remapRound pairs tmp [] = some mrow ∧ Dict.lookup mapped rd = some mrow
  | pairs, [], acc, mapped, hnd, h, rd, tmp, hrd => by
    simp [Dict.lookup] at hrd
  | pairs, rt :: rest, acc, mapped, hnd, h, rd, tmp, hrd => by
    simp only [Dict.keys, List.map_cons, List.nodup_cons] at hnd
    simp only [svRemap] at h
    cases hrow : remapRound pairs rt.2 [] with
    | none => rw [hrow] at h; exact absurd h (by simp)
    | some mrow =>
      rw [hrow] at h
      simp only [Dict.lookup] at hrd
      by_cases hp : rt.1 = rd
      · simp only [hp, if_true, Option.some.injEq] at hrd
        have hrest : Dict.lookup rest rd = none :=
          Dict.lookup_eq_none_of_not_mem_keys (hp ▸ hnd.1)
        refine ⟨mrow, hrd ▸ hrow, ?_⟩
        rw [svRemap_none pairs rest _ h hrest, ← hp, Dict.lookup_insert_self]
      · simp only [hp, if_false] at hrd
        exact svRemap_some pairs rest _ hnd.2 h hrd

theorem svRemap_total {α : Type} [DecidableEq α] :
    ∀ (pairs : List (α × Nat)) (v : Dict Nat (Dict Nat ℚ)),
      (∀ rt ∈ v, ∀ pr ∈ pairs, (Dict.lookup rt.2 pr.2).isSome) →
      ∀ acc, ∃ mapped, svRemap pairs v acc = some mapped
  | pairs, [], _, acc => ⟨acc, rfl⟩
  | pairs, rt :: rest, h, acc => by
    obtain ⟨mrow, hrow⟩ :=
      remapRound_total pairs rt.2 (h rt (List.mem_cons_self _ _)) []
    obtain ⟨mapped, hm⟩ :=
      svRemap_total pairs rest (fun q hq => h q (List.mem_cons_of_mem _ hq))
        (Dict.insert acc rt.1 mrow)
    exact ⟨mapped, by simp only [svRemap, hrow]; exact hm⟩

/-- One run configuration field matters to this layer: the declared worker
count (`config.worker_number`).  `reset_session`/`apply_global_config` and
the log-file path touch no state modelled here. -/
structure Config where
  worker_number : Nat
  deriving DecidableEq

/-- One federated participant ("practitioner"): an entity carrying a
unique identifier. -/
structure Practitioner where
  id : String
  deriving DecidableEq

/-- The value stored in the `tasks` registry for one asynchronous run
(training.py lines 96-101); the executor-pool handle is an external
object whose observable answers are fed to `get_training_result` as a
`PollResult`. -/
structure TaskRecord where
  practitioner_ids : Finset String
  config : Config
  deriving DecidableEq

/-- The two process-wide registries `tasks` and `task_results`. -/
structure SimState where
  tasks : Dict Nat TaskRecord
  task_results : Dict Nat (Dict String RVal)
  deriving DecidableEq

/-- What one `process_pool.wait_results(timeout=...)` call reports: the
values of the completed-results mapping, and the truthiness of the
not-done indicator. -/
structure PollResult where
  results : List (Option (Dict String RVal))
  not_done : Bool

/-- The merge loop of `get_training_result` (training.py lines 113-116):
`for result in results.values(): if result is not None:
task_results[task_id] |= result`.  A missing `task_id` key is a KeyError. -/
def mergeFragments (tr : Dict Nat (Dict String RVal)) (task_id : Nat)
    (results : List (Option (Dict String RVal))) :
    Except GTRError (Dict Nat (Dict String RVal)) :=
  match results with
  | [] => Except.ok tr
  | none :: rest => mergeFragments tr task_id rest
  | some frag :: rest =>
    match Dict.lookup tr task_id with
    | none => Except.error GTRError.resultsKeyError
    | some cur => mergeFragments (Dict.insert tr task_id (Dict.union cur frag)) task_id rest

/-- The stats-assembly loop of `get_training_result` (training.py lines
123-137): every key other than `"sv"` is copied through; the `"sv"` raw
table is remapped from worker-slot indices to sorted participant
identifiers.  A worker slot absent from a round's table is a KeyError;
a non-table under `"sv"` is a TypeError. -/
def buildStats (practitioner_ids : Finset String) (config : Config)
    (items stats : Dict String RVal) : Except GTRError (Dict String RVal) :=
  match items with
  | [] => Except.ok stats
  | kv :: rest =>
    if kv.1 = "sv" then
      match kv.2 with
      | RVal.svRaw t =>
        match svRemap (zipPairs practitioner_ids config.worker_number) t [] with
        | none => Except.error GTRError.remapKeyError
        | some mapped =>
          buildStats practitioner_ids config rest
            (Dict.insert stats kv.1 (RVal.svMapped mapped))
      | _ => Except.error GTRError.svTypeError
    else buildStats practitioner_ids config rest (Dict.insert stats kv.1 kv.2)

/-- `get_training_result` (training.py lines 110-139).  The external pool
interaction is summarised by `poll`; the returned pair is the updated
global registries and the outcome: `ok none` is the "no result yet"
sentinel, `ok (some stats)` the assembled stats, `error` a raised
exception (the state component then reflects the mutations made up to the
raise point). -/
def get_training_result (st : SimState) (task_id : Nat) (poll : PollResult) :
    SimState × Except GTRError (Option (Dict String RVal)) :=
  match Dict.lookup st.tasks task_id with
  | none => (st, Except.error GTRError.taskKeyError)
  | some task =>
    match mergeFragments st.task_results task_id poll.results with
    | Except.error e => (st, Except.error e)
    | Except.ok tr1 =>
      if poll.not_done then
        ({ st with task_results := tr1 }, Except.ok none)
      else
        match Dict.lookup tr1 task_id with
        | none =>
          ({ tasks := Dict.pop st.tasks task_id, task_results := tr1 },
           Except.error GTRError.resultsKeyError)
        | some acc =>
          match buildStats task.practitioner_ids task.config acc [] with
          | Except.error e =>
            ({ tasks := Dict.pop st.tasks task_id, task_results := tr1 },
             Except.error e)
          | Except.ok stats =>
            ({ tasks := Dict.pop st.tasks task_id, task_results := Dict.pop tr1 task_id },
             Except.ok (some stats))

theorem mergeFragments_keys :
    ∀ (tr : Dict Nat (Dict String RVal)) (task_id : Nat)
      (results : List (Option (Dict String RVal))) {tr1 : Dict Nat (Dict String RVal)},
      mergeFragments tr task_id results = Except.ok tr1 →
      Dict.keys tr1 = Dict.keys tr
  | tr, task_id, [], tr1, h => by
    simp only [mergeFragments, Except.ok.injEq] at h
    rw [h]
  | tr, task_id, none :: rest, tr1, h => by
    simp only [mergeFragments] at h
    exact mergeFragments_keys tr task_id rest h
  | tr, task_id, some frag :: rest, tr1, h => by
    simp only [mergeFragments] at h
    cases hcur : Dict.lookup tr task_id with
    | none => rw [hcur] at h; exact absurd h (by simp)
    | some cur =>
      rw [hcur] at h
      rw [mergeFragments_keys _ task_id rest h,
        Dict.keys_insert_of_mem _ (Dict.mem_keys_of_lookup hcur)]

theorem mergeFragments_total :
    ∀ (tr : Dict Nat (Dict String RVal)) (task_id : Nat)
      (results : List (Option (Dict String RVal))),
      (Dict.lookup tr task_id).isSome →
      ∃ tr1, mergeFragments tr task_id results = Except.ok tr1 ∧
        (Dict.lookup tr1 task_id).isSome
  | tr, task_id, [], h => ⟨tr, rfl, h⟩
  | tr, task_id, none :: rest, h => by
    simpa only [mergeFragments] using mergeFragments_total tr task_id rest h
  | tr, task_id, some frag :: rest, h => by
    cases hcur : Dict.lookup tr task_id with
    | none => rw [hcur] at h; simp at h
    | some cur =>
      obtain ⟨tr1, h1, h2⟩ :=
        mergeFragments_total (Dict.insert tr task_id (Dict.union cur frag)) task_id rest
          (by rw [Dict.lookup_insert_self]; rfl)
      exact ⟨tr1, by simp only [mergeFragments, hcur]; exact h1, h2⟩

theorem buildStats_lookup_not_mem :
    ∀ (ids : Finset String) (cfg : Config) (items stats : Dict String RVal)
      {out : Dict String RVal},
      buildStats ids cfg items stats = Except.ok out →
      ∀ {key : String}, key ∉ Dict.keys items →
      Dict.lookup out key = Dict.lookup stats key
  | ids, cfg, [], stats, out, h, key, hk => by
    simp only [buildStats, Except.ok.injEq] at h
    rw [h]
  | ids, cfg, kv :: rest, stats, out, h, key, hk => by
    simp only [Dict.keys, List.map_cons, List.mem_cons, not_or] at hk
    have hne : kv.1 ≠ key := fun he => hk.1 he.symm
    have hrest : key ∉ Dict.keys rest := by simpa [Dict.keys] using hk.2
    simp only [buildStats] at h
    by_cases hsv : kv.1 = "sv"
    · rw [if_pos hsv] at h
      cases hv : kv.2 with
      | num q => rw [hv] at h; exact absurd h (by simp)
      | svMapped t => rw [hv] at h; exact absurd h (by simp)
      | svRaw t =>
        rw [hv] at h
        replace h : (match svRemap (zipPairs ids cfg.worker_number) t [] with
          | none => Except.error GTRError.remapKeyError
          | some mapped =>
            buildStats ids cfg rest (Dict.insert stats kv.1 (RVal.svMapped mapped))) =
            Except.ok out := h
        cases hmap : svRemap (zipPairs ids cfg.worker_number) t [] with
        | none => rw [hmap] at h; exact absurd h (by simp)
        | some mapped =>
          rw [hmap] at h
          rw [buildStats_lookup_not_mem ids cfg rest _ h hrest,
            Dict.lookup_insert_ne _ _ hne]
    · rw [if_neg hsv] at h
      rw [buildStats_lookup_not_mem ids cfg rest _ h hrest,
        Dict.lookup_insert_ne _ _ hne]

theorem buildStats_sv :
    ∀ (ids : Finset String) (cfg : Config) (items stats : Dict String RVal)
      {out : Dict String RVal},
      (Dict.keys items).Nodup →
      buildStats ids cfg items stats = Except.ok out →
      ∀ {t : Dict Nat (Dict Nat ℚ)},
      Dict.lookup items "sv" = some (RVal.svRaw t) →
      ∃ mapped, svRemap (zipPairs ids cfg.worker_number) t [] = some mapped ∧
        Dict.lookup out "sv" = some (RVal.svMapped mapped)
  | ids, cfg, [], stats, out, hnd, h, t, hsv => by
    simp [Dict.lookup] at hsv
  | ids, cfg, kv :: rest, stats, out, hnd, h, t, hsv => by
    simp only [Dict.keys, List.map_cons, List.nodup_cons] at hnd
    simp only [Dict.lookup] at hsv
    simp only [buildStats] at h
    by_cases hk : kv.1 = "sv"
    · rw [if_pos hk] at h
      rw [if_pos hk] at hsv
      simp only [Option.some.injEq] at hsv
      cases hv : kv.2 with
      | num q => rw [hv] at h; exact absurd h (by simp)
      | svMapped tm => rw [hv] at h; exact absurd h (by simp)
      | svRaw traw =>
        rw [hv] at hsv
        have ht : traw = t := by
          cases hsv
          rfl
        rw [hv] at h
        replace h : (match svRemap (zipPairs ids cfg.worker_number) traw [] with
          | none => Except.error GTRError.remapKeyError
          | some mapped =>
            buildStats ids cfg rest (Dict.insert stats kv.1 (RVal.svMapped mapped))) =
            Except.ok out := h
        cases hmap : svRemap (zipPairs ids cfg.worker_number) traw [] with
        | none => rw [hmap] at h; exact absurd h (by simp)
        | some mapped =>
          rw [hmap] at h
          refine ⟨mapped, ht ▸ hmap, ?_⟩
          have hnm : ("sv" : String) ∉ Dict.keys rest := hk ▸ hnd.1
          rw [buildStats_lookup_not_mem ids cfg rest _ h hnm, ← hk,
            Dict.lookup_insert_self]
    · rw [if_neg hk] at h
      rw [if_neg hk] at hsv
      exact buildStats_sv ids cfg rest _ hnd.2 h hsv

/-- Unknown task id: `tasks[task_id]` raises KeyError and nothing is
mutated. -/
theorem get_training_result_unknown (st : SimState) (task_id : Nat) (poll : PollResult)
    (h : Dict.lookup st.tasks task_id = none) :
    get_training_result st task_id poll = (st, Except.error GTRError.taskKeyError) := by
  simp [get_training_result, h]

/-- Incomplete poll: merged fragments are recorded and the sentinel `none`
is returned. -/
theorem get_training_result_incomplete (st : SimState) (task_id : Nat) (poll : PollResult)
    {task : TaskRecord} {tr1 : Dict Nat (Dict String RVal)}
    (h1 : Dict.lookup st.tasks task_id = some task)
    (h2 : mergeFragments st.task_results task_id poll.results = Except.ok tr1)
    (h3 : poll.not_done = true) :
    get_training_result st task_id poll =
      ({ st with task_results := tr1 }, Except.ok none) := by
  simp [get_training_result, h1, h2, h3]

/-- Complete poll: the outcome is decided by `buildStats`, with `tasks`
popped before the remap and `task_results` popped only after it. -/
theorem get_training_result_complete (st : SimState) (task_id : Nat) (poll : PollResult)
    {task : TaskRecord} {tr1 : Dict Nat (Dict String RVal)} {acc : Dict String RVal}
    (h1 : Dict.lookup st.tasks task_id = some task)
    (h2 : mergeFragments st.task_results task_id poll.results = Except.ok tr1)
    (h3 : poll.not_done = false)
    (h4 : Dict.lookup tr1 task_id = some acc) :
    get_training_result st task_id poll =
      match buildStats task.practitioner_ids task.config acc [] with
      | Except.error e =>
        ({ tasks := Dict.pop st.tasks task_id, task_results := tr1 }, Except.error e)
      | Except.ok stats =>
        ({ tasks := Dict.pop st.tasks task_id, task_results := Dict.pop tr1 task_id },
         Except.ok (some stats)) := by
  simp only [get_training_result, h1, h2, h3, h4, Bool.false_eq_true, if_false]

/-- The `algorithm` object held by a constructed server; `shapley_values`
is `some` exactly when the Python object exposes that attribute
(`hasattr(server.algorithm, "shapley_values")`). -/
structure ServerAlgorithm where
  shapley_values : Option (Dict Nat (Dict Nat ℚ))

/-- The server object built by `server_config["constructor"]` and already
run to completion (`server.start()` returned): only its observable
attributes matter to the result fragment. -/
structure Server where
  algorithm : ServerAlgorithm
  performance_stat : ℚ

/-- `start_server` (training.py lines 19-34), post `server.start()`:
`res = {}`; `res["sv"] = server.algorithm.shapley_values` if the attribute
exists; `res |= {"performance": server.performance_stat}`. -/
def start_server (server : Server) : Dict String RVal :=
  let res : Dict String RVal := []
  let res2 : Dict String RVal :=
    match server.algorithm.shapley_values with
    | some sv => Dict.insert res "sv" (RVal.svRaw sv)
    | none => res
  Dict.union res2 [("performance", RVal.num server.performance_stat)]

/-- The callables handed to `context.submit`. -/
inductive PoolFun where
  | start_server
  | run_worker
  deriving DecidableEq

/-- One `context.submit(funs, kwargs)` call, recorded in submission order:
the callables and their positional per-callable arguments. -/
structure SubmitCall (W : Type) where
  funs : List PoolFun
  kwargs_list : List W
  deriving DecidableEq

/-- A failed Python `assert`. -/
inductive AssertError where
  | assertionFailed
  deriving DecidableEq

/-- `start_workers` (training.py lines 45-61): assert the context type,
assert the list is non-empty, then submit one `run_worker` per
configuration, all in a single batch (`context.submit(worker_funs,
kwargs_list=worker_configs)`).  `context_ok` is the truth value of
`isinstance(context, FederatedLearningContext)`. -/
def start_workers {W : Type} (context_ok : Bool) (worker_configs : List W) :
    Except AssertError (SubmitCall W) :=
  match context_ok with
  | false => Except.error AssertError.assertionFailed
  | true =>
    match worker_configs with
    | [] => Except.error AssertError.assertionFailed
    | w :: rest =>
      Except.ok
        { funs := (w :: rest).map (fun _ => PoolFun.run_worker),
          kwargs_list := w :: rest }

/-- `task_id = uuid.uuid4().int + os.getpid()` (training.py line 82). -/
def mint_task_id (uuid_int pid : Nat) : Nat := uuid_int + pid

/-- The summary of `get_worker_config`'s return value that `train`
inspects: the `isinstance` status of the popped `"context"`, the optional
`"server"` entry, and the `"worker"` batches. -/
structure WorkerConfigBundle (W : Type) where
  context_ok : Bool
  server : Option W
  worker : List (List W)

/-- The worker-submission loop of `train` (training.py lines 94-95): call
`start_workers` on each batch in order, stopping at the first assertion
failure; returns the submit calls made and the error if one was raised. -/
def submitBatches {W : Type} (context_ok : Bool) (batches : List (List W)) :
    List (SubmitCall W) × Option AssertError :=
  match batches with
  | [] => ([], none)
  | b :: rest =>
    match start_workers context_ok b with
    | Except.error e => ([], some e)
    | Except.ok call =>
      ((call :: (submitBatches context_ok rest).1), (submitBatches context_ok rest).2)

/-- `train` (training.py lines 67-107).  `practitioners = none` is
synchronous mode; otherwise a task id is minted from `uuid_val` and
`pid`.  The external `get_worker_config` result is summarised by
`bundle`.  Returns the updated registries, the ordered submit calls
(server first, then the worker batches), and the outcome. -/
def train {W : Type} (st : SimState) (config : Config)
    (practitioners : Option (Finset Practitioner))
    (bundle : WorkerConfigBundle W) (uuid_val pid : Nat) :
    SimState × List (SubmitCall W) × Except AssertError (Option Nat) :=
  match bundle.context_ok with
  | false => (st, [], Except.error AssertError.assertionFailed)
  | true =>
    match bundle.server with
    | none => (st, [], Except.error AssertError.assertionFailed)
    | some sc =>
      let serverCall : SubmitCall W := { funs := [PoolFun.start_server], kwargs_list := [sc] }
      let trace : List (SubmitCall W) := serverCall :: (submitBatches true bundle.worker).1
      match (submitBatches true bundle.worker).2 with
      | some e => (st, trace, Except.error e)
      | none =>
        match practitioners with
        | some ps =>
          let tid := mint_task_id uuid_val pid
          ({ tasks := Dict.insert st.tasks tid
               { practitioner_ids := Finset.image Practitioner.id ps, config := config },
             task_results := Dict.insert st.task_results tid [] },
           trace, Except.ok (some tid))
        | none => (st, trace, Except.ok none)

theorem submitBatches_funs {W : Type} :
    ∀ (context_ok : Bool) (batches : List (List W)) (c : SubmitCall W),
      c ∈ (submitBatches context_ok batches).1 →
      ∀ f ∈ c.funs, f = PoolFun.run_worker
  | context_ok, [], c, hc => by simp [submitBatches] at hc
  | context_ok, b :: rest, c, hc => by
    cases hw : start_workers context_ok b with
    | error e =>
      rw [submitBatches, hw] at hc
      simp at hc
    | ok call =>
      rw [submitBatches, hw] at hc
      rcases List.mem_cons.mp hc with hcall | hmem
      · intro f hf
        cases context_ok with
        | false => simp [start_workers] at hw
        | true =>
          cases b with
          | nil => simp [start_workers] at hw
          | cons w ws =>
            simp only [start_workers, Except.ok.injEq] at hw
            subst hcall
            rw [← hw] at hf
            obtain ⟨x, hx, hfx⟩ := List.mem_map.mp hf
            exact hfx.symm
      · exact submitBatches_funs context_ok rest c hmem

theorem submitBatches_none {W : Type} :
    ∀ (batches : List (List W)), (∀ b ∈ batches, b ≠ []) →
      (submitBatches (W := W) true batches).2 = none
  | [], _ => rfl
  | b :: rest, h => by
    cases b with
    | nil => exact absurd rfl (h [] (List.mem_cons_self _ _))
    | cons w ws =>
      simp only [submitBatches, start_workers]
      exact submitBatches_none rest (fun q hq => h q (List.mem_cons_of_mem _ hq))

theorem train_task_id {W : Type} (st : SimState) (config : Config)
    (practitioners : Option (Finset Practitioner)) (bundle : WorkerConfigBundle W)
    (uuid_val pid : Nat) {t : Nat}
    (h : (train st config practitioners bundle uuid_val pid).2.2 = Except.ok (some t)) :
    t = mint_task_id uuid_val pid := by
  cases hctx : bundle.context_ok with
  | false => rw [train, hctx] at h; exact absurd h (by simp)
  | true =>
    cases hsrv : bundle.server with
    | none => rw [train, hctx, hsrv] at h; exact absurd h (by simp)
    | some sc =>
      rw [train, hctx, hsrv] at h
      cases herr : (submitBatches (W := W) true bundle.worker).2 with
      | some e =>
        rw [herr] at h
        exact absurd h (by simp)
      | none =>
        rw [herr] at h
        cases hpr : practitioners with
        | none => rw [hpr] at h; exact absurd h (by simp)
        | some ps =>
          rw [hpr] at h
          simp only [Except.ok.injEq, Option.some.injEq] at h
          exact h.symm

/-- Claim C6: for every completed `start_server` invocation, the returned
fragment always contains `"performance"` mapped to the server's
`performance_stat`, and contains `"sv"` (mapped to the raw attribution
table) if and only if the server's algorithm object exposes a
`shapley_values` attribute. -/
theorem C6_start_server_fragment (s : Server) :
    Dict.lookup (start_server s) "performance" = some (RVal.num s.performance_stat) ∧
    Dict.lookup (start_server s) "sv" = Option.map RVal.svRaw s.algorithm.shapley_values ∧
    ((Dict.lookup (start_server s) "sv").isSome ↔ s.algorithm.shapley_values.isSome) := by
  have hsp : ¬("sv" : String) = "performance" := by decide
  cases hsv : s.algorithm.shapley_values with
  | none => simp [start_server, hsv, Dict.union, Dict.insert, Dict.lookup]
  | some sv => simp [start_server, hsv, Dict.union, Dict.insert, Dict.lookup, hsp]

/-- Claim C7: `start_workers` fails with an assertion error when the
context is not a `FederatedLearningContext` or the configuration list is
empty; otherwise it submits, as one batch, exactly one `run_worker`
invocation per configuration, carrying that configuration as its
argument. -/
theorem C7_start_workers_batch :
    (∀ (W : Type) (cfgs : List W),
      start_workers false cfgs = Except.error AssertError.assertionFailed) ∧
    (∀ (W : Type),
      start_workers true ([] : List W) = Except.error AssertError.assertionFailed) ∧
    (∀ (W : Type) (cfgs : List W), cfgs ≠ [] →
      start_workers true cfgs =
        Except.ok { funs := cfgs.map (fun _ => PoolFun.run_worker), kwargs_list := cfgs } ∧
      (cfgs.map (fun _ => PoolFun.run_worker)).length = cfgs.length) := by
  refine ⟨fun W cfgs => rfl, fun W => rfl, fun W cfgs hne => ?_⟩
  cases cfgs with
  | nil => exact absurd rfl hne
  | cons w rest => exact ⟨rfl, by simp⟩

/-- Witness for C7 at a concrete batch. -/
theorem C7_start_workers_batch_witness :
    ([5, 7] : List Nat) ≠ [] ∧
    start_workers true ([5, 7] : List Nat) =
      Except.ok { funs := [PoolFun.run_worker, PoolFun.run_worker], kwargs_list := [5, 7] } :=
  ⟨by decide, (C7_start_workers_batch.2.2 Nat [5, 7] (by decide)).1⟩

/-- Claim C8: merging result fragments into a task's accumulated result is
set-union-by-key with last-writer-wins; in particular merging the
fragment with key a and value 1 and then the fragment with a mapped to 2
and b mapped to 3 into an initially empty accumulator yields the mapping
with a mapped to 2 and b mapped to 3. -/
theorem C8_merge_last_writer_wins :
    mergeFragments [(0, ([] : Dict String RVal))] 0
        [some [("a", RVal.num 1)], some [("a", RVal.num 2), ("b", RVal.num 3)]] =
      Except.ok [(0, [("a", RVal.num 2), ("b", RVal.num 3)])] ∧
    (∀ (K V : Type) [DecidableEq K] (d1 d2 : Dict K V) (k : K),
      (Dict.keys d2).Nodup →
      (∀ v, Dict.lookup d2 k = some v → Dict.lookup (Dict.union d1 d2) k = some v) ∧
      (Dict.lookup d2 k = none → Dict.lookup (Dict.union d1 d2) k = Dict.lookup d1 k)) := by
  refine ⟨by decide, fun K V _ d1 d2 k hnd => ?_⟩
  exact ⟨fun v hv => Dict.lookup_union_some d1 hnd hv,
    fun hv => Dict.lookup_union_none d1 hnd hv⟩

/-- Witness for C8 on the fragments of the claim. -/
theorem C8_merge_last_writer_wins_witness :
    (Dict.keys [("a", (2 : Nat)), ("b", 3)]).Nodup ∧
    Dict.lookup (Dict.union [("a", (1 : Nat))] [("a", 2), ("b", 3)]) "a" = some 2 ∧
    Dict.lookup (Dict.union [("a", (1 : Nat))] [("a", 2), ("b", 3)]) "b" = some 3 :=
  ⟨by decide,
   (C8_merge_last_writer_wins.2 String Nat [("a", 1)] [("a", 2), ("b", 3)] "a"
      (by decide)).1 2 (by decide),
   (C8_merge_last_writer_wins.2 String Nat [("a", 1)] [("a", 2), ("b", 3)] "b"
      (by decide)).1 3 (by decide)⟩

/-- Claim C3: two asynchronous `train` invocations on the same process
mint distinct task identifiers, the identifier being the sum of a random
unique value (`uuid.uuid4().int`) and the process id: distinct unique
values give distinct identifiers, for any number of rapid successive
calls. -/
theorem C3_task_ids_distinct {W : Type} (st1 st2 : SimState) (cfg1 cfg2 : Config)
    (pr1 pr2 : Option (Finset Practitioner)) (b1 b2 : WorkerConfigBundle W)
    (u1 u2 pid t1 t2 : Nat)
    (hu : u1 ≠ u2)
    (h1 : (train st1 cfg1 pr1 b1 u1 pid).2.2 = Except.ok (some t1))
    (h2 : (train st2 cfg2 pr2 b2 u2 pid).2.2 = Except.ok (some t2)) :
    t1 ≠ t2 := by
  rw [train_task_id _ _ _ _ _ _ h1, train_task_id _ _ _ _ _ _ h2]
  exact fun he => hu (Nat.add_right_cancel he)

/-- Witness for C3: two concrete asynchronous runs on process 5. -/
theorem C3_task_ids_distinct_witness :
    (0 : Nat) ≠ 1 ∧
    (@train Nat ⟨[], []⟩ ⟨1⟩ (some {⟨"x"⟩}) ⟨true, some 0, []⟩ 0 5).2.2 =
      Except.ok (some 5) ∧
    (@train Nat ⟨[], []⟩ ⟨1⟩ (some {⟨"x"⟩}) ⟨true, some 0, []⟩ 1 5).2.2 =
      Except.ok (some 6) ∧
    (5 : Nat) ≠ 6 :=
  ⟨by decide, by decide, by decide,
   @C3_task_ids_distinct Nat ⟨[], []⟩ ⟨[], []⟩ ⟨1⟩ ⟨1⟩ (some {⟨"x"⟩}) (some {⟨"x"⟩})
     ⟨true, some 0, []⟩ ⟨true, some 0, []⟩ 0 1 5 5 6 (by decide) (by decide) (by decide)⟩

/-- Claim C4: every `train` invocation that passes the context and server
asserts submits the server exactly once, at the head of the submission
trace — before every worker submission, whose calls carry only
`run_worker`. -/
theorem C4_server_submitted_first {W : Type} (st : SimState) (config : Config)
    (practitioners : Option (Finset Practitioner)) (bundle : WorkerConfigBundle W)
    (uuid_val pid : Nat) (sc : W)
    (hctx : bundle.context_ok = true)
    (hsrv : bundle.server = some sc) :
    ∃ rest, (train st config practitioners bundle uuid_val pid).2.1 =
        { funs := [PoolFun.start_server], kwargs_list := [sc] } :: rest ∧
      ∀ c ∈ rest, ∀ f ∈ c.funs, f = PoolFun.run_worker := by
  refine ⟨(submitBatches true bundle.worker).1, ?_,
    fun c hc => submitBatches_funs true bundle.worker c hc⟩
  simp only [train, hctx, hsrv]
  cases herr : (submitBatches true bundle.worker).2 with
  | some e => simp [herr]
  | none =>
    cases practitioners with
    | some ps => simp [herr]
    | none => simp [herr]

/-- Witness for C4: a concrete run with two worker batches. -/
theorem C4_server_submitted_first_witness :
    (⟨true, some 9, [[1, 2], [3]]⟩ : WorkerConfigBundle Nat).context_ok = true ∧
    (∃ rest, (@train Nat ⟨[], []⟩ ⟨3⟩ none ⟨true, some 9, [[1, 2], [3]]⟩ 0 1).2.1 =
        { funs := [PoolFun.start_server], kwargs_list := [9] } :: rest ∧
      ∀ c ∈ rest, ∀ f ∈ c.funs, f = PoolFun.run_worker) :=
  ⟨rfl, @C4_server_submitted_first Nat ⟨[], []⟩ ⟨3⟩ none ⟨true, some 9, [[1, 2], [3]]⟩
    0 1 9 rfl rfl⟩

/-- Claim C5: `train` in synchronous mode (no practitioners) returns
`None` and leaves both registries exactly as they were. -/
theorem C5_train_sync_no_registration {W : Type} (st : SimState) (config : Config)
    (bundle : WorkerConfigBundle W) (uuid_val pid : Nat) (sc : W)
    (hctx : bundle.context_ok = true)
    (hsrv : bundle.server = some sc)
    (hbat : ∀ b ∈ bundle.worker, b ≠ []) :
    ∃ trace, train st config none bundle uuid_val pid = (st, trace, Except.ok none) := by
  refine ⟨{ funs := [PoolFun.start_server], kwargs_list := [sc] } ::
    (submitBatches true bundle.worker).1, ?_⟩
  simp [train, hctx, hsrv, submitBatches_none bundle.worker hbat]

/-- Witness for C5 at a concrete synchronous run. -/
theorem C5_train_sync_no_registration_witness :
    (⟨true, some 7, [[1], [2, 3]]⟩ : WorkerConfigBundle Nat).context_ok = true ∧
    (∀ b ∈ (⟨true, some 7, [[1], [2, 3]]⟩ : WorkerConfigBundle Nat).worker, b ≠ []) ∧
    (∃ trace, @train Nat ⟨[(4, ⟨{"p"}, ⟨1⟩⟩)], []⟩ ⟨2⟩ none ⟨true, some 7, [[1], [2, 3]]⟩ 4 9 =
      (⟨[(4, ⟨{"p"}, ⟨1⟩⟩)], []⟩, trace, Except.ok none)) :=
  ⟨rfl, by decide,
   @C5_train_sync_no_registration Nat ⟨[(4, ⟨{"p"}, ⟨1⟩⟩)], []⟩ ⟨2⟩
     ⟨true, some 7, [[1], [2, 3]]⟩ 4 9 7 rfl rfl (by decide)⟩

/-- Claim C2: polling an incomplete registered task returns the sentinel
`none` and leaves the task retrievable; polling a complete one returns
the assembled stats and removes the task from both registries, after
which any further call — like any call with an unregistered id — raises
a lookup error. -/
theorem C2_result_collector_lifecycle :
    (∀ (st : SimState) (task_id : Nat) (poll : PollResult) (task : TaskRecord),
      Dict.lookup st.tasks task_id = some task →
      (Dict.lookup st.task_results task_id).isSome →
      poll.not_done = true →
      ∃ st2, get_training_result st task_id poll = (st2, Except.ok none) ∧
        st2.tasks = st.tasks ∧ (Dict.lookup st2.task_results task_id).isSome) ∧
    (∀ (st : SimState) (task_id : Nat) (poll : PollResult) (task : TaskRecord)
        (tr1 : Dict Nat (Dict String RVal)) (acc stats : Dict String RVal),
      (Dict.keys st.tasks).Nodup →
      (Dict.keys st.task_results).Nodup →
      Dict.lookup st.tasks task_id = some task →
      mergeFragments st.task_results task_id poll.results = Except.ok tr1 →
      poll.not_done = false →
      Dict.lookup tr1 task_id = some acc →
      buildStats task.practitioner_ids task.config acc [] = Except.ok stats →
      get_training_result st task_id poll =
        ({ tasks := Dict.pop st.tasks task_id, task_results := Dict.pop tr1 task_id },
         Except.ok (some stats)) ∧
      Dict.lookup (Dict.pop st.tasks task_id) task_id = none ∧
      Dict.lookup (Dict.pop tr1 task_id) task_id = none ∧
      (∀ poll2, get_training_result
          { tasks := Dict.pop st.tasks task_id, task_results := Dict.pop tr1 task_id }
          task_id poll2 =
        ({ tasks := Dict.pop st.tasks task_id, task_results := Dict.pop tr1 task_id },
         Except.error GTRError.taskKeyError))) ∧
    (∀ (st : SimState) (task_id : Nat) (poll : PollResult),
      Dict.lookup st.tasks task_id = none →
      get_training_result st task_id poll = (st, Except.error GTRError.taskKeyError)) := by
  refine ⟨?_, ?_, fun st task_id poll h => get_training_result_unknown st task_id poll h⟩
  · intro st task_id poll task h1 h2 h3
    obtain ⟨tr1, hmerge, hsome⟩ := mergeFragments_total st.task_results task_id poll.results h2
    exact ⟨{ st with task_results := tr1 },
      get_training_result_incomplete st task_id poll h1 hmerge h3, rfl, hsome⟩
  · intro st task_id poll task tr1 acc stats hnt hnr h1 hmerge h3 h4 hbuild
    have hnd1 : (Dict.keys tr1).Nodup := by
      rw [mergeFragments_keys st.task_results task_id poll.results hmerge]
      exact hnr
    have hrun : get_training_result st task_id poll =
        ({ tasks := Dict.pop st.tasks task_id, task_results := Dict.pop tr1 task_id },
         Except.ok (some stats)) := by
      rw [get_training_result_complete st task_id poll h1 hmerge h3 h4, hbuild]
    have hpop1 : Dict.lookup (Dict.pop st.tasks task_id) task_id = none :=
      Dict.lookup_pop_self task_id hnt
    refine ⟨hrun, hpop1, Dict.lookup_pop_self task_id hnd1, fun poll2 => ?_⟩
    exact get_training_result_unknown _ task_id poll2 hpop1

/-- Witness for C2: a concrete task polled while running, then to
completion, then again; and an unregistered id. -/
theorem C2_result_collector_lifecycle_witness :
    (∃ st2, get_training_result ⟨[(5, ⟨{"p1"}, ⟨1⟩⟩)], [(5, [])]⟩ 5
        ⟨[some [("loss", RVal.num 2)]], true⟩ = (st2, Except.ok none) ∧
      st2.tasks = [(5, ⟨{"p1"}, ⟨1⟩⟩)] ∧ (Dict.lookup st2.task_results 5).isSome) ∧
    (get_training_result ⟨[(5, ⟨{"p1"}, ⟨1⟩⟩)], [(5, [])]⟩ 5
        ⟨[some [("loss", RVal.num 2)]], false⟩ =
      (⟨[], []⟩, Except.ok (some [("loss", RVal.num 2)])) ∧
      Dict.lookup ([] : Dict Nat TaskRecord) 5 = none ∧
      (∀ poll2, get_training_result ⟨[], []⟩ 5 poll2 =
        (⟨[], []⟩, Except.error GTRError.taskKeyError))) ∧
    get_training_result ⟨[], []⟩ 9 ⟨[], false⟩ = (⟨[], []⟩, Except.error GTRError.taskKeyError) := by
  refine ⟨?_, ?_, ?_⟩
  · exact C2_result_collector_lifecycle.1 ⟨[(5, ⟨{"p1"}, ⟨1⟩⟩)], [(5, [])]⟩ 5
      ⟨[some [("loss", RVal.num 2)]], true⟩ ⟨{"p1"}, ⟨1⟩⟩ (by decide) (by decide) rfl
  · have h := C2_result_collector_lifecycle.2.1 ⟨[(5, ⟨{"p1"}, ⟨1⟩⟩)], [(5, [])]⟩ 5
      ⟨[some [("loss", RVal.num 2)]], false⟩ ⟨{"p1"}, ⟨1⟩⟩
      [(5, [("loss", RVal.num 2)])] [("loss", RVal.num 2)] [("loss", RVal.num 2)]
      (by decide) (by decide) (by decide) (by decide) rfl (by decide) (by decide)
    exact ⟨h.1, h.2.1, h.2.2.2⟩
  · exact C2_result_collector_lifecycle.2.2 ⟨[], []⟩ 9 ⟨[], false⟩ (by decide)

/-- Claim C10: in the completion path the task id leaves `tasks` before
the sv remap runs and leaves `task_results` only after it, so a remap
error yields a state with the id gone from `tasks` but its accumulated
fragments still in `task_results`. -/
theorem C10_cleanup_not_atomic (st : SimState) (task_id : Nat) (poll : PollResult)
    (task : TaskRecord) (tr1 : Dict Nat (Dict String RVal)) (acc : Dict String RVal)
    (e : GTRError)
    (hnt : (Dict.keys st.tasks).Nodup)
    (h1 : Dict.lookup st.tasks task_id = some task)
    (hmerge : mergeFragments st.task_results task_id poll.results = Except.ok tr1)
    (h3 : poll.not_done = false)
    (h4 : Dict.lookup tr1 task_id = some acc)
    (hbuild : buildStats task.practitioner_ids task.config acc [] = Except.error e) :
    get_training_result st task_id poll =
      ({ tasks := Dict.pop st.tasks task_id, task_results := tr1 }, Except.error e) ∧
    Dict.lookup (Dict.pop st.tasks task_id) task_id = none ∧
    Dict.lookup tr1 task_id = some acc := by
  refine ⟨?_, Dict.lookup_pop_self task_id hnt, h4⟩
  rw [get_training_result_complete st task_id poll h1 hmerge h3 h4, hbuild]

/-- Witness for C10: a round table missing worker slot 0 makes the remap
raise after `tasks` was popped, leaving the fragment in `task_results`. -/
theorem C10_cleanup_not_atomic_witness :
    buildStats {"p1"} ⟨1⟩ [("sv", RVal.svRaw [(0, [])])] [] =
      Except.error GTRError.remapKeyError ∧
    (get_training_result ⟨[(3, ⟨{"p1"}, ⟨1⟩⟩)], [(3, [("sv", RVal.svRaw [(0, [])])])]⟩ 3
        ⟨[], false⟩ =
      (⟨[], [(3, [("sv", RVal.svRaw [(0, [])])])]⟩, Except.error GTRError.remapKeyError) ∧
      Dict.lookup ([] : Dict Nat TaskRecord) 3 = none ∧
      Dict.lookup [(3, [("sv", RVal.svRaw [(0, [])])])] 3 =
        some [("sv", RVal.svRaw [(0, [])])]) :=
  ⟨by decide,
   C10_cleanup_not_atomic ⟨[(3, ⟨{"p1"}, ⟨1⟩⟩)], [(3, [("sv", RVal.svRaw [(0, [])])])]⟩ 3
     ⟨[], false⟩ ⟨{"p1"}, ⟨1⟩⟩ [(3, [("sv", RVal.svRaw [(0, [])])])]
     [("sv", RVal.svRaw [(0, [])])] GTRError.remapKeyError
     (by decide) (by decide) (by decide) rfl (by decide) (by decide)⟩

theorem zipPairs_keys_nodup (P : Finset String) (wn : Nat) :
    (Dict.keys (zipPairs P wn)).Nodup := by
  rw [zipPairs, Dict.keys_zip]
  exact (List.take_sublist _ _).nodup (sortedIds_nodup P)

theorem zipPairs_lookup_get (P : Finset String) (wn : Nat) (i : Nat)
    (h1 : i < (sortedIds P).length) (h2 : i < wn) :
    Dict.lookup (zipPairs P wn) ((sortedIds P).get ⟨i, h1⟩) = some i := by
  have h2' : i < (List.range wn).length := by simpa using h2
  rw [zipPairs, Dict.lookup_zip_get (sortedIds P) (List.range wn) (sortedIds_nodup P) i h1 h2']
  simp

theorem zipPairs_length (P : Finset String) (wn : Nat) :
    (zipPairs P wn).length = min P.card wn := by
  rw [zipPairs, List.length_zip, sortedIds_length, List.length_range]

/-- Claim C9: when `worker_number` differs from the cardinality of the
participant set, the sv remap silently truncates: each round pairs only
the `min(worker_number, card)` smallest sorted identifiers with slots
`0..min-1`, and — provided every paired slot is present in the round's
table — it raises no error and produces no entry for identifiers beyond
that bound. -/
theorem C9_remap_truncates (P : Finset String) (wn : Nat) (v : Dict Nat (Dict Nat ℚ))
    (hv : (Dict.keys v).Nodup)
    (hpresent : ∀ rt ∈ v, ∀ pr ∈ zipPairs P wn, (Dict.lookup rt.2 pr.2).isSome) :
    (zipPairs P wn).length = min P.card wn ∧
    ∃ mapped, svRemap (zipPairs P wn) v [] = some mapped ∧
      ∀ rd tmp, Dict.lookup v rd = some tmp →
        ∃ mrow, Dict.lookup mapped rd = some mrow ∧
          (∀ (i : Nat) (h1 : i < (sortedIds P).length) (h2 : i < wn),
            Dict.lookup mrow ((sortedIds P).get ⟨i, h1⟩) = Dict.lookup tmp i) ∧
          (∀ pid, pid ∉ (sortedIds P).take (min wn P.card) →
            Dict.lookup mrow pid = none) := by
  refine ⟨zipPairs_length P wn, ?_⟩
  obtain ⟨mapped, hmap⟩ := svRemap_total (zipPairs P wn) v hpresent []
  refine ⟨mapped, hmap, fun rd tmp hrd => ?_⟩
  obtain ⟨mrow, hrem, hlook⟩ := svRemap_some (zipPairs P wn) v [] hv hmap hrd
  refine ⟨mrow, hlook, fun i h1 h2 => ?_, fun pid hpid => ?_⟩
  · exact remapRound_some (zipPairs P wn) tmp [] (zipPairs_keys_nodup P wn) hrem
      (zipPairs_lookup_get P wn i h1 h2)
  · have htake : (sortedIds P).take (min wn P.card) = (sortedIds P).take wn := by
      rw [← sortedIds_length P, List.take_min_length]
    have hkeys : pid ∉ Dict.keys (zipPairs P wn) := by
      rw [zipPairs, Dict.keys_zip, List.length_range, ← htake]
      exact hpid
    rw [remapRound_none (zipPairs P wn) tmp [] hrem
      (Dict.lookup_eq_none_of_not_mem_keys hkeys)]
    rfl

/-- Witness for C9: three participants but `worker_number = 2` — only the
two smallest identifiers get entries, and no error is raised. -/
theorem C9_remap_truncates_witness :
    (Dict.keys [(0, ([(0, (1 : ℚ)), (1, 2)] : Dict Nat ℚ))]).Nodup ∧
    (zipPairs {"p3", "p1", "p2"} 2).length = min (Finset.card {"p3", "p1", "p2"}) 2 ∧
    (∃ mapped, svRemap (zipPairs {"p3", "p1", "p2"} 2)
        [(0, [(0, (1 : ℚ)), (1, 2)])] [] = some mapped ∧
      ∀ rd tmp, Dict.lookup [(0, [(0, (1 : ℚ)), (1, 2)])] rd = some tmp →
        ∃ mrow, Dict.lookup mapped rd = some mrow ∧
          (∀ (i : Nat) (h1 : i < (sortedIds {"p3", "p1", "p2"}).length) (h2 : i < 2),
            Dict.lookup mrow ((sortedIds {"p3", "p1", "p2"}).get ⟨i, h1⟩) =
              Dict.lookup tmp i) ∧
          (∀ pid, pid ∉ (sortedIds {"p3", "p1", "p2"}).take
              (min 2 (Finset.card {"p3", "p1", "p2"})) →
            Dict.lookup mrow pid = none)) := by
  have h := C9_remap_truncates {"p3", "p1", "p2"} 2 [(0, [(0, (1 : ℚ)), (1, 2)])]
    (by decide) (by decide)
  exact ⟨by decide, h.1, h.2⟩

/-- Claim C1: with worker_number equal to the number of participants, a
completed `get_training_result` returns stats whose sv table satisfies
remapped[round][pid] = original[round][slot], where slot is the 0-based
rank of pid in the sorted participant set. -/
theorem C1_sv_remapped_by_sorted_rank (st : SimState) (task_id : Nat) (poll : PollResult)
    (task : TaskRecord) (acc : Dict String RVal) (v : Dict Nat (Dict Nat ℚ))
    (st2 : SimState) (stats : Dict String RVal)
    (hne : task.practitioner_ids.Nonempty)
    (hwn : task.config.worker_number = task.practitioner_ids.card)
    (h1 : Dict.lookup st.tasks task_id = some task)
    (h2 : Dict.lookup st.task_results task_id = some acc)
    (hacc : (Dict.keys acc).Nodup)
    (hsv : Dict.lookup acc "sv" = some (RVal.svRaw v))
    (hv : (Dict.keys v).Nodup)
    (hres : poll.results = [])
    (hnd : poll.not_done = false)
    (hrun : get_training_result st task_id poll = (st2, Except.ok (some stats))) :
    ∃ mapped, Dict.lookup stats "sv" = some (RVal.svMapped mapped) ∧
      ∀ rd tmp, Dict.lookup v rd = some tmp →
        ∃ mrow, Dict.lookup mapped rd = some mrow ∧
          ∀ (i : Nat) (hi : i < (sortedIds task.practitioner_ids).length),
            Dict.lookup mrow ((sortedIds task.practitioner_ids).get ⟨i, hi⟩) =
              Dict.lookup tmp i := by
  have hmerge : mergeFragments st.task_results task_id poll.results =
      Except.ok st.task_results := by
    rw [hres]
    rfl
  cases hbs : buildStats task.practitioner_ids task.config acc [] with
  | error e =>
    rw [get_training_result_complete st task_id poll h1 hmerge hnd h2, hbs] at hrun
    exact absurd hrun (by simp)
  | ok s =>
    rw [get_training_result_complete st task_id poll h1 hmerge hnd h2, hbs] at hrun
    have hs : s = stats := by
      have hsnd := congrArg Prod.snd hrun
      simpa using hsnd
    subst hs
    obtain ⟨mapped, hremap, hstats⟩ :=
      buildStats_sv task.practitioner_ids task.config acc [] hacc hbs hsv
    refine ⟨mapped, hstats, fun rd tmp hrd => ?_⟩
    obtain ⟨mrow, hrem, hlook⟩ := svRemap_some _ v [] hv hremap hrd
    refine ⟨mrow, hlook, fun i hi => ?_⟩
    have h2i : i < task.config.worker_number := by
      rw [hwn, ← sortedIds_length]
      exact hi
    exact remapRound_some _ tmp [] (zipPairs_keys_nodup _ _) hrem
      (zipPairs_lookup_get task.practitioner_ids task.config.worker_number i hi h2i)

/-- The concrete rationals of the end-to-end scenario: 0.9, 0.1, 0.2, 0.3. -/
def qNineTenths : ℚ := ⟨9, 10, by decide, by decide⟩

def qOneTenth : ℚ := ⟨1, 10, by decide, by decide⟩

def qOneFifth : ℚ := ⟨1, 5, by decide, by decide⟩

def qThreeTenths : ℚ := ⟨3, 10, by decide, by decide⟩

/-- Witness for C1: the end-to-end scenario — participants p3, p1, p2,
worker_number 3, one completed server fragment with performance 0.9 and
per-slot sv 0.1, 0.2, 0.3 — yields exactly the expected final stats, and
the sorted-rank property holds at it. -/
theorem C1_sv_remapped_by_sorted_rank_witness :
    get_training_result
        ⟨[(7, ⟨{"p3", "p1", "p2"}, ⟨3⟩⟩)],
         [(7, [("performance", RVal.num qNineTenths),
               ("sv", RVal.svRaw [(0, [(0, qOneTenth), (1, qOneFifth), (2, qThreeTenths)])])])]⟩
        7 ⟨[], false⟩ =
      (⟨[], []⟩,
       Except.ok (some [("performance", RVal.num qNineTenths),
         ("sv", RVal.svMapped
           [(0, [("p1", qOneTenth), ("p2", qOneFifth), ("p3", qThreeTenths)])])])) ∧
    (∃ mapped,
      Dict.lookup [("performance", RVal.num qNineTenths),
          ("sv", RVal.svMapped
            [(0, [("p1", qOneTenth), ("p2", qOneFifth), ("p3", qThreeTenths)])])] "sv" =
        some (RVal.svMapped mapped) ∧
      ∀ rd tmp,
        Dict.lookup [(0, ([(0, qOneTenth), (1, qOneFifth), (2, qThreeTenths)] : Dict Nat ℚ))]
            rd = some tmp →
        ∃ mrow, Dict.lookup mapped rd = some mrow ∧
          ∀ (i : Nat) (hi : i < (sortedIds {"p3", "p1", "p2"}).length),
            Dict.lookup mrow ((sortedIds {"p3", "p1", "p2"}).get ⟨i, hi⟩) =
              Dict.lookup tmp i) := by
  refine ⟨by decide, ?_⟩
  exact C1_sv_remapped_by_sorted_rank
    ⟨[(7, ⟨{"p3", "p1", "p2"}, ⟨3⟩⟩)],
     [(7, [("performance", RVal.num qNineTenths),
           ("sv", RVal.svRaw [(0, [(0, qOneTenth), (1, qOneFifth), (2, qThreeTenths)])])])]⟩
    7 ⟨[], false⟩ ⟨{"p3", "p1", "p2"}, ⟨3⟩⟩
    [("performance", RVal.num qNineTenths),
     ("sv", RVal.svRaw [(0, [(0, qOneTenth), (1, qOneFifth), (2, qThreeTenths)])])]
    [(0, [(0, qOneTenth), (1, qOneFifth), (2, qThreeTenths)])]
    ⟨[], []⟩
    [("performance", RVal.num qNineTenths),
     ("sv", RVal.svMapped [(0, [("p1", qOneTenth), ("p2", qOneFifth), ("p3", qThreeTenths)])])]
    (by decide) (by decide) (by decide) (by decide) (by decide) (by decide) (by decide)
    rfl rfl (by decide)
